import Mathlib

/-!
Verification of the café-list web service (`app/main.py`, `app/models.py`) against its
specification.  The SQLAlchemy/SQLite store is embedded as explicit lists of rows, the
FastAPI handlers become pure state-passing functions `Store → result × Store`, and the
sklearn TF-IDF/cosine pipeline of the recommender (an external library call) is modelled
over exact unnormalised fractions as described at its definition site.
-/

namespace CafeList

/-- Row of the `categories` table (`models.py`, class `Category`): integer primary key
and a name that carries a UNIQUE constraint. -/
structure Category where
  id : Nat
  name : String
deriving DecidableEq

/-- Row of the `cafes` table (`models.py`, class `Cafe`): title, city, description and a
nullable image URL; `(title, city)` carries a UNIQUE constraint (`uq_cafe_title_city`). -/
structure Cafe where
  id : Nat
  title : String
  city : String
  description : String
  image_url : Option String
deriving DecidableEq

instance : Inhabited Cafe := ⟨⟨0, "", "", "", none⟩⟩

/-- Row of the `cafe_categories` association table (`models.py`, class `CafeCategory`):
`(cafe_id, category_id)` carries a UNIQUE constraint (`uq_cafe_category`). -/
structure CafeCategory where
  id : Nat
  cafe_id : Nat
  category_id : Nat
  is_best : Bool
deriving DecidableEq

/-- The relational store: the three tables in row-insertion (primary-key) order, plus the
autoincrement counters for the two surrogate keys the handlers allocate. -/
structure Store where
  cafes : List Cafe
  categories : List Category
  assocs : List CafeCategory
  nextCafeId : Nat
  nextAssocId : Nat
deriving DecidableEq

/-- Request body of POST/PUT `/cafes` (`schemas.py`, class `CafeCreate`). -/
structure CafeCreate where
  title : String
  city : String
  description : String
  image_url : Option String
  best_for : String
  also_good_for : List String
deriving DecidableEq

/-- Errors surfaced by the handlers.  `missingCategories` is the 400 of `get_cafes`
whose detail joins the missing names (a Python `set`, so carried here as the list of
names rather than a formatted string, set iteration order being unspecified);
`badRequest`/`notFound` carry the literal `HTTPException` detail strings;
`internalError` is an unhandled Python exception escaping a handler (an HTTP 500), such
as the `MissingGreenlet` the recommendation endpoint raises. -/
inductive ApiError where
  | missingCategories (names : List String)
  | badRequest (detail : String)
  | notFound (detail : String)
  | internalError (msg : String)
deriving DecidableEq

instance {ε α : Type} [DecidableEq ε] [DecidableEq α] : DecidableEq (Except ε α) := fun a b =>
  match a, b with
  | .error e, .error f =>
    if h : e = f then .isTrue (h ▸ rfl) else .isFalse (fun hh => h (Except.error.inj hh))
  | .error _, .ok _ => .isFalse (fun hh => Except.noConfusion hh)
  | .ok _, .error _ => .isFalse (fun hh => Except.noConfusion hh)
  | .ok x, .ok y =>
    if h : x = y then .isTrue (h ▸ rfl) else .isFalse (fun hh => h (Except.ok.inj hh))

/-! ### Character/string helpers

String operations are carried out on lists of character codes so that every function
below evaluates by kernel reduction. -/

/-- Lower-case a character, as its code point (ASCII fold, enough for `ilike`/`lower()`
semantics on the data the handlers compare). -/
def lowerCode (c : Char) : Nat :=
  let n := c.toNat
  if 65 ≤ n ∧ n ≤ 90 then n + 32 else n

/-- Code points of a string, lower-cased. -/
def lowerCodes (s : String) : List Nat := s.data.map lowerCode

/-- Whether `needle` occurs as a contiguous part of `hay`. -/
def infixCodes (needle hay : List Nat) : Bool :=
  (List.range (hay.length + 1)).any (fun i => needle.isPrefixOf (hay.drop i))

/-- Case-insensitive substring test: `Cafe.city.ilike(f"%{city}%")` in `get_cafes`. -/
def cityContains (cafeCity filt : String) : Bool :=
  infixCodes (lowerCodes filt) (lowerCodes cafeCity)

/-- Case-sensitive substring test (used only to state facts about error messages). -/
def containsSub (hay needle : String) : Bool :=
  infixCodes (needle.data.map Char.toNat) (hay.data.map Char.toNat)

/-- First-occurrence deduplication with an accumulator of already-seen elements;
`dedupFirst [] l` models iterating a Python `set` built from `l` (order normalised to
first occurrence). -/
def dedupFirst {α : Type} [DecidableEq α] : List α → List α → List α
  | _, [] => []
  | seen, x :: xs =>
    if x ∈ seen then dedupFirst seen xs else x :: dedupFirst (x :: seen) xs

/-! ### Category lookup and validation (`main.py` lines 54–66, 94–104, 140–150) -/

/-- Look a category up by exact name (`select(Category).filter(Category.name.in_(...))`
plus dict lookup; names are UNIQUE so the first match is the row). -/
def findCategory (s : Store) (n : String) : Option Category :=
  s.categories.find? (fun c => c.name == n)

/-- Whether a category name exists in the category store. -/
def categoryExists (s : Store) (n : String) : Bool := (findCategory s n).isSome

/-- First name of the list that is absent from the category store: `create_cafe` and
`update_cafe` iterate `also_good_for` in order and raise on the first missing name. -/
def firstMissing (s : Store) (names : List String) : Option String :=
  names.find? (fun n => !(categoryExists s n))

/-- Category ids resolved from names, skipping unresolvable ones
(`valid_categories[cat_name].id`; total on validated input). -/
def resolveIds (s : Store) (names : List String) : List Nat :=
  names.filterMap (fun n => (findCategory s n).map (fun c => c.id))

/-! ### GET /cafes (`get_cafes`, `main.py` lines 47–85) -/

/-- Python truthiness of the optional `city`/`best_for` query parameters
(`if city:`, `if best_for:`) — absent or empty string is falsy. -/
def truthyStr (o : Option String) : Bool :=
  match o with
  | none => false
  | some s => !(s == "")

/-- Python truthiness of the optional `also_good_for` parameter — absent or empty list
is falsy. -/
def truthyList (o : Option (List String)) : Bool :=
  match o with
  | none => false
  | some l => !l.isEmpty

/-- The names collected into `category_names` before validation (best_for first, then
the also_good_for names, mirroring the `add`/`update` calls on the set). -/
def queriedNames (bestFor : Option String) (alsoGoodFor : Option (List String)) : List String :=
  (if truthyStr bestFor then [bestFor.getD ""] else []) ++
    (if truthyList alsoGoodFor then alsoGoodFor.getD [] else [])

/-- The set `category_names - found_categories` of `get_cafes`, as a first-occurrence
deduplicated list. -/
def missingNames (s : Store) (bestFor : Option String) (alsoGoodFor : Option (List String)) :
    List String :=
  (dedupFirst [] (queriedNames bestFor alsoGoodFor)).filter (fun n => !(categoryExists s n))

/-- Embedding of the source expression `CafeCategory.is_best is True` (`main.py` line 77).
Python `is` compares object identity: the class attribute `CafeCategory.is_best` is an
ORM `InstrumentedAttribute`, never the singleton `True`, so the expression evaluates to
the Python constant `False`, which SQLAlchemy coerces to a constant-false SQL predicate
in the WHERE clause.  The row being filtered is irrelevant. -/
def isBestIsTrue (_a : CafeCategory) : Bool := false

/-- Embedding of `CafeCategory.is_best is False` (`main.py` line 80); same analysis as
`isBestIsTrue`: the attribute object is never the singleton `False`, so the expression
is the Python constant `False`, a constant-false SQL predicate. -/
def isBestIsFalse (_a : CafeCategory) : Bool := false

/-- Predicate on one joined row `(assoc, category)` of
`Cafe ⋈ CafeCategory ⋈ Category`, after the `best_for`/`also_good_for` filters of
`get_cafes` lines 76–80 are applied to it. -/
def joinedRowOk (s : Store) (bestFor : Option String) (alsoGoodFor : Option (List String))
    (a : CafeCategory) : Bool :=
  s.categories.any (fun cat =>
    cat.id == a.category_id &&
    (!truthyStr bestFor || (cat.name == bestFor.getD "" && isBestIsTrue a)) &&
    (!truthyList alsoGoodFor || ((alsoGoodFor.getD []).contains cat.name && isBestIsFalse a)))

/-- Result of `get_cafes`: category-name validation, then the filtered (and, via
`distinct()`, deduplicated) café list.  A café survives the joined filters iff some of
its association rows passes them. -/
def getCafesResult (s : Store) (city bestFor : Option String)
    (alsoGoodFor : Option (List String)) : Except ApiError (List Cafe) :=
  let missing := missingNames s bestFor alsoGoodFor
  if !missing.isEmpty then .error (.missingCategories missing)
  else
    .ok (s.cafes.filter (fun c =>
      (!truthyStr city || cityContains c.city (city.getD "")) &&
      ((!truthyStr bestFor && !truthyList alsoGoodFor) ||
        s.assocs.any (fun a => a.cafe_id == c.id && joinedRowOk s bestFor alsoGoodFor a))))

/-- The GET /cafes handler: a read-only transaction, so the store passes through. -/
def getCafes (s : Store) (city bestFor : Option String)
    (alsoGoodFor : Option (List String)) : Except ApiError (List Cafe) × Store :=
  (getCafesResult s city bestFor alsoGoodFor, s)

/-! ### Database constraints and writes -/

/-- The `(title, city)` key of every café row, for the `uq_cafe_title_city` constraint. -/
def titleCityKeys (s : Store) : List (String × String) :=
  s.cafes.map (fun c => (c.title, c.city))

/-- The `(cafe_id, category_id)` key of every association row, for the
`uq_cafe_category` constraint. -/
def assocKeys (s : Store) : List (Nat × Nat) :=
  s.assocs.map (fun a => (a.cafe_id, a.category_id))

/-- A commit succeeds iff the resulting table contents satisfy the two UNIQUE
constraints; otherwise the database raises `IntegrityError` and the handler rolls the
transaction back. -/
def dbConstraintsOk (s : Store) : Prop :=
  (titleCityKeys s).Nodup ∧ (assocKeys s).Nodup

instance : DecidablePred dbConstraintsOk := fun s => by
  unfold dbConstraintsOk; infer_instance

/-- Association rows for the `also_good_for` categories, `is_best=False`, with
consecutive autoincrement ids in insertion order (`main.py` lines 117–118, 160–161). -/
def alsoRows (base cafeId : Nat) : List Nat → List CafeCategory
  | [] => []
  | catId :: rest => ⟨base, cafeId, catId, false⟩ :: alsoRows (base + 1) cafeId rest

/-- The full association set a write inserts for one café: one `is_best=True` row for
the best category followed by one `is_best=False` row per additional category. -/
def newAssocRows (base cafeId bestId : Nat) (alsoIds : List Nat) : List CafeCategory :=
  ⟨base, cafeId, bestId, true⟩ :: alsoRows (base + 1) cafeId alsoIds

/-- POST /cafes (`create_cafe`, `main.py` lines 88–126): validate the category names
(best first, then the additional names in order), insert the café row and its
association rows, and commit; `IntegrityError` rolls back and surfaces the literal
detail `"Cafe with this title and city already exists"`. -/
def createCafe (s : Store) (req : CafeCreate) : Except ApiError Cafe × Store :=
  match findCategory s req.best_for with
  | none => (.error (.badRequest ("Category " ++ req.best_for ++ " does not exist")), s)
  | some bestCat =>
    match firstMissing s req.also_good_for with
    | some n => (.error (.badRequest ("Category " ++ n ++ " does not exist")), s)
    | none =>
      let newCafe : Cafe := ⟨s.nextCafeId, req.title, req.city, req.description, req.image_url⟩
      let rows := newAssocRows s.nextAssocId newCafe.id bestCat.id (resolveIds s req.also_good_for)
      let s' : Store := ⟨s.cafes ++ [newCafe], s.categories, s.assocs ++ rows,
        s.nextCafeId + 1, s.nextAssocId + rows.length⟩
      if dbConstraintsOk s' then (.ok newCafe, s')
      else (.error (.badRequest "Cafe with this title and city already exists"), s)

/-- Field update performed on the fetched ORM object (`main.py` lines 152–155); the
primary key is untouched. -/
def applyCafeFields (req : CafeCreate) (c : Cafe) : Cafe :=
  { c with title := req.title, city := req.city,
           description := req.description, image_url := req.image_url }

/-- PUT /cafes/{id} (`update_cafe`, `main.py` lines 129–169): 404 when the café does not
exist, the same category validation as `create_cafe`, field update, then
delete-all-and-reinsert of the association rows of the café inside one transaction;
`IntegrityError` rolls everything back. -/
def updateCafe (s : Store) (cafeId : Nat) (req : CafeCreate) : Except ApiError Cafe × Store :=
  match s.cafes.find? (fun c => c.id == cafeId) with
  | none => (.error (.notFound "Cafe not found"), s)
  | some c0 =>
    match findCategory s req.best_for with
    | none => (.error (.badRequest ("Category " ++ req.best_for ++ " does not exist")), s)
    | some bestCat =>
      match firstMissing s req.also_good_for with
      | some n => (.error (.badRequest ("Category " ++ n ++ " does not exist")), s)
      | none =>
        let rows := newAssocRows s.nextAssocId c0.id bestCat.id (resolveIds s req.also_good_for)
        let s' : Store :=
          ⟨s.cafes.map (fun c => if c.id == c0.id then applyCafeFields req c else c),
            s.categories,
            s.assocs.filter (fun a => !(a.cafe_id == c0.id)) ++ rows,
            s.nextCafeId, s.nextAssocId + rows.length⟩
        if dbConstraintsOk s' then (.ok (applyCafeFields req c0), s')
        else (.error (.badRequest "Cafe with this title and city already exists"), s)

/-- DELETE /cafes/{id} (`delete_cafe`, `main.py` lines 172–185): 404 when absent,
otherwise remove the association rows of the café and then the café row. -/
def deleteCafe (s : Store) (cafeId : Nat) : Except ApiError String × Store :=
  match s.cafes.find? (fun c => c.id == cafeId) with
  | none => (.error (.notFound "Cafe not found"), s)
  | some c0 =>
    (.ok "Cafe deleted",
      ⟨s.cafes.filter (fun c => !(c.id == c0.id)), s.categories,
        s.assocs.filter (fun a => !(a.cafe_id == c0.id)), s.nextCafeId, s.nextAssocId⟩)

/-- GET /categories (`get_categories`, `main.py` lines 212–216). -/
def getCategories (s : Store) : Except ApiError (List (Nat × String)) × Store :=
  (.ok (s.categories.map (fun c => (c.id, c.name))), s)

/-! ### The derived views of `models.py` and the text documents of the recommender -/

/-- Association rows of one café, in table order (`Cafe.category_associations`). -/
def cafeAssocs (s : Store) (c : Cafe) : List CafeCategory :=
  s.assocs.filter (fun a => a.cafe_id == c.id)

/-- The `Cafe.best_for` property (`models.py` lines 27–32): the `Category` OBJECT of the
first association flagged `is_best`, or Python `None`.  Note it returns the ORM object,
not the NAME of the category. -/
def bestForCategory (s : Store) (c : Cafe) : Option Category :=
  ((cafeAssocs s c).find? (fun a => a.is_best)).bind
    (fun a => s.categories.find? (fun cat => cat.id == a.category_id))

/-- The `Cafe.also_good_for` property (`models.py` lines 34–36): the list of `Category`
OBJECTS of the non-best associations, in table order. -/
def alsoGoodForCategories (s : Store) (c : Cafe) : List Category :=
  ((cafeAssocs s c).filter (fun a => !a.is_best)).filterMap
    (fun a => s.categories.find? (fun cat => cat.id == a.category_id))

/-- Message of the `sqlalchemy.exc.MissingGreenlet` exception (modelled as a label). -/
def missingGreenletMsg : String := "MissingGreenlet: greenlet_spawn has not been called"

/-- The text-document construction of `recommend_similar_cafes` line 198 for one café.
Evaluating the f-string first accesses `cafe.best_for`, whose body iterates
`self.category_associations` — an UNLOADED lazy (`select`) relationship on an instance
fetched via plain `select(Cafe)` in an `AsyncSession` (`sqlite+aiosqlite`,
`database.py`).  In SQLAlchemy asyncio that attribute access attempts IO outside the
greenlet context and raises `MissingGreenlet`, for every café and every store, before
any string is assembled — so the construction never yields a document.  (Were the
associations eagerly loaded, the properties would still return `Category` OBJECTS
rather than names, but execution never gets that far.) -/
def buildText (_s : Store) (_c : Cafe) : Except String String :=
  .error missingGreenletMsg

/-- Text documents of a list of cafés in order, stopping at the first raised exception
(the list comprehension of line 198 evaluates per café, in corpus order). -/
def buildTextsList (s : Store) : List Cafe → Except String (List String)
  | [] => .ok []
  | c :: cs =>
    match buildText s c with
    | .error m => .error m
    | .ok t =>
      match buildTextsList s cs with
      | .error m => .error m
      | .ok ts => .ok (t :: ts)

/-- The `texts` list of line 198, built per café in corpus order; the first raised
exception aborts the request (for every nonempty corpus this is the `MissingGreenlet`
of the very first café). -/
def buildTexts (s : Store) : Except String (List String) :=
  buildTextsList s s.cafes

/-- Space-separated concatenation. -/
def joinSpace : List String → String
  | [] => ""
  | [x] => x
  | x :: xs => x ++ " " ++ joinSpace xs

/-- Modelled from the spec (§4.3): the text document the spec prescribes — the
description of the café concatenated with the best-category NAME and the NAMES of all additional
categories.  Stated only for comparison with `buildText`, which embeds the source. -/
def specTextDoc (s : Store) (c : Cafe) : String :=
  joinSpace (c.description ::
    ((bestForCategory s c).toList.map (fun cat => cat.name) ++
      (alsoGoodForCategories s c).map (fun cat => cat.name)))

/-! ### TF-IDF and cosine similarity

`TfidfVectorizer`/`cosine_similarity` are external sklearn calls, so this part is
modelled from the spec (§4.3: "term-frequency/inverse-document-frequency vector per
document over the full corpus", "pairwise cosine similarity").  To keep every value an
exact kernel-computable number the model uses unnormalised fractions of naturals
(all quantities involved are nonnegative): `idf` is the fraction `(1+N)/(1+df)` (the
logarithm of the smoothed sklearn idf is dropped — it never changes which documents are
EQUAL, and in particular identical documents still get identical vectors and
self-similarity is still the unique maximum value `1`), and similarities are compared
through their SQUARES `cosSq = ⟨u,v⟩² / (⟨u,u⟩·⟨v,v⟩)`, which avoids square roots and
induces the same order and the same ties as the cosine itself on nonnegative vectors.
This pipeline embeds lines 199–203 as written; in the program it is never reached,
because the document construction of line 198 raises `MissingGreenlet` for every
nonempty corpus (see `buildText`). -/

/-- An unnormalised nonnegative fraction `num/den`. -/
structure Frac where
  num : Nat
  den : Nat
deriving DecidableEq

/-- The fraction zero. -/
def Frac.zero : Frac := ⟨0, 1⟩

/-- Strict value-level order on fractions by cross-multiplication. -/
def Frac.lt (x y : Frac) : Prop := x.num * y.den < y.num * x.den

/-- Value-level equality of fractions by cross-multiplication. -/
def Frac.eqv (x y : Frac) : Prop := x.num * y.den = y.num * x.den

instance : DecidableRel Frac.lt := fun x y => by unfold Frac.lt; infer_instance

instance : DecidableRel Frac.eqv := fun x y => by unfold Frac.eqv; infer_instance

/-- Fraction addition, unnormalised. -/
def Frac.add (x y : Frac) : Frac := ⟨x.num * y.den + y.num * x.den, x.den * y.den⟩

/-- Fraction multiplication, unnormalised. -/
def Frac.mul (x y : Frac) : Frac := ⟨x.num * y.num, x.den * y.den⟩

/-- Tokenisation of the default sklearn analyzer: lower-case, then keep the maximal runs
of word characters that are at least two characters long (token pattern `\w\w+`,
ASCII-folded here). -/
def isWordCode (n : Nat) : Bool :=
  (48 ≤ n && n ≤ 57) || (65 ≤ n && n ≤ 90) || (97 ≤ n && n ≤ 122) || n == 95 || 128 ≤ n

/-- Split a code list into maximal runs of word characters (accumulator holds the
current run reversed). -/
def splitRuns : List Nat → List Nat → List (List Nat)
  | cur, [] => if cur.isEmpty then [] else [cur.reverse]
  | cur, c :: cs =>
    if isWordCode c then splitRuns (c :: cur) cs
    else if cur.isEmpty then splitRuns [] cs else cur.reverse :: splitRuns [] cs

/-- Tokens of one document, as lists of lower-cased code points. -/
def tokenize (d : String) : List (List Nat) :=
  (splitRuns [] (lowerCodes d)).filter (fun t => 2 ≤ t.length)

/-- The corpus vocabulary: every token, in first-occurrence order (the order of the
vector coordinates is irrelevant to dot products). -/
def vocab (docs : List String) : List (List Nat) :=
  dedupFirst [] ((docs.map tokenize).flatten)

/-- Raw term frequency of a token in a document. -/
def tf (tok : List Nat) (d : String) : Nat := (tokenize d).count tok

/-- Document frequency of a token over the corpus. -/
def df (docs : List String) (tok : List Nat) : Nat :=
  (docs.filter (fun d => (tokenize d).contains tok)).length

/-- The TF-IDF vector of one document over the corpus vocabulary; each coordinate is
`tf · (1+N)/(1+df)`. -/
def tfidfVec (docs : List String) (d : String) : List Frac :=
  (vocab docs).map (fun t => ⟨tf t d * (1 + docs.length), 1 + df docs t⟩)

/-- Dot product of two fraction vectors. -/
def dotF (u v : List Frac) : Frac :=
  ((u.zip v).map (fun p => p.1.mul p.2)).foldl Frac.add Frac.zero

/-- Squared cosine similarity `⟨u,v⟩² / (⟨u,u⟩·⟨v,v⟩)`; zero when either vector is
zero (the sklearn convention for zero vectors). -/
def cosSq (u v : List Frac) : Frac :=
  if (dotF u u).num = 0 ∨ (dotF v v).num = 0 then Frac.zero
  else ⟨(dotF u v).num * (dotF u v).num * ((dotF u u).den * (dotF v v).den),
    (dotF u v).den * (dotF u v).den * ((dotF u u).num * (dotF v v).num)⟩

/-- The TF-IDF vectors of the whole corpus (`vectorizer.fit_transform(texts)`). -/
def tfidfVecs (docs : List String) : List (List Frac) :=
  docs.map (fun d => tfidfVec docs d)

/-- Row `similarities[cafe_idx]` of the pairwise similarity matrix: the similarity of
the document at index `t` to every document of the corpus, in corpus order. -/
def scoreRow (docs : List String) (t : Nat) : List Frac :=
  (tfidfVecs docs).map (fun v => cosSq ((tfidfVecs docs).getD t []) v)

/-! ### The ranking step of `recommend_similar_cafes` (`main.py` lines 188–204) -/

/-- Ascending comparison of row positions by score, ties broken by the original index
(the lexicographic key `(value, original index)`).  This is the comparison the argsort
model below sorts by. -/
def lexLe (row : List Frac) (i j : Nat) : Prop :=
  Frac.lt (row.getD i Frac.zero) (row.getD j Frac.zero) ∨
    (Frac.eqv (row.getD i Frac.zero) (row.getD j Frac.zero) ∧ i ≤ j)

instance (row : List Frac) : DecidableRel (lexLe row) := fun i j => by
  unfold lexLe; infer_instance

/-- Model of `np.argsort(similarities[cafe_idx])` (line 203): the indices `0..n-1`
sorted ascending by score.  The tie order of `np.argsort` is implementation-defined —
numpy guarantees the stable insertion-sort path only for arrays of fewer than 16
elements — so an executable model must fix ONE admissible tie order, and this one
breaks ties by original index.  No theorem in this file depends on the tie order
chosen: the ranking code is dead for every corpus of two or more cafés, where the
request dies earlier in `MissingGreenlet` (see `buildText`). -/
def argsortAsc (row : List Frac) : List Nat :=
  (List.range row.length).insertionSort (lexLe row)

/-- The slice `[::-1][1:4]` of line 203: reverse to descending order, drop the first
index (intended to be the target itself), keep the next three. -/
def recommendIdxs (row : List Frac) : List Nat :=
  ((argsortAsc row).reverse.drop 1).take 3

/-- `[c.id for c in cafes].index(cafe_id)` — the corpus index of the target café. -/
def targetIdx (s : Store) (cafeId : Nat) : Nat :=
  s.cafes.findIdx (fun c => c.id == cafeId)

/-- Position of a café row in the corpus (the order `select(Cafe)` returns). -/
def corpusIdx (s : Store) (c : Cafe) : Nat :=
  s.cafes.findIdx (fun x => x == c)

/-- The similarity row of the target café, via the documents the code builds; dummy
empty row when the text construction raises (the request dies first in that case). -/
def scoreRowOf (s : Store) (cafeId : Nat) : List Frac :=
  match buildTexts s with
  | .error _ => []
  | .ok texts => scoreRow texts (targetIdx s cafeId)

/-- `recommend_similar_cafes`: 404 for an unknown id; empty result for a corpus of at
most one café (returned before any document is built); otherwise line 198 raises
`MissingGreenlet` (`buildTexts` is an error for every nonempty corpus), which FastAPI
surfaces as an HTTP 500 — the final branch returning the ranked cafés reproduces
lines 199–204 as written but is unreachable. -/
def recommendSimilarCafes (s : Store) (cafeId : Nat) : Except ApiError (List Cafe) :=
  match s.cafes.find? (fun c => c.id == cafeId) with
  | none => .error (.notFound "Cafe not found")
  | some _ =>
    if s.cafes.length ≤ 1 then .ok []
    else
      match buildTexts s with
      | .error m => .error (.internalError m)
      | .ok texts =>
        .ok ((recommendIdxs (scoreRow texts (targetIdx s cafeId))).map
          (fun i => s.cafes.getD i default))

/-- The GET /cafes/{id}/recommend handler: read-only, the store passes through. -/
def getRecommendations (s : Store) (cafeId : Nat) : Except ApiError (List Cafe) × Store :=
  (recommendSimilarCafes s cafeId, s)

/-! ### Store invariants (data-model section of the spec) -/

/-- Café primary keys are distinct. -/
def cafeIdsNodup (s : Store) : Prop := (s.cafes.map (fun c => c.id)).Nodup

/-- Every allocated café id is below the autoincrement counter. -/
def cafeIdsLt (s : Store) : Prop := ∀ c ∈ s.cafes, c.id < s.nextCafeId

/-- Foreign key: every association row points at an existing café. -/
def assocFK (s : Store) : Prop := ∀ a ∈ s.assocs, ∃ c ∈ s.cafes, c.id = a.cafe_id

/-- At most one association row per café is flagged `is_best`. -/
def atMostOneBest (s : Store) : Prop :=
  (s.assocs.filter (fun a => a.is_best)).Pairwise (fun a b => a.cafe_id ≠ b.cafe_id)

instance : DecidablePred cafeIdsNodup := fun s => by
  unfold cafeIdsNodup; infer_instance

instance : DecidablePred cafeIdsLt := fun s => by
  unfold cafeIdsLt; infer_instance

instance : DecidablePred assocFK := fun s => by
  unfold assocFK; infer_instance

instance : DecidablePred atMostOneBest := fun s => by
  unfold atMostOneBest; infer_instance

/-- The store invariant: the two UNIQUE constraints, key discipline of the surrogate
ids, the café foreign key, and the one-best-per-café property. -/
def StoreInv (s : Store) : Prop :=
  dbConstraintsOk s ∧ cafeIdsNodup s ∧ cafeIdsLt s ∧ assocFK s ∧ atMostOneBest s

instance : DecidablePred StoreInv := fun s => by
  unfold StoreInv cafeIdsNodup cafeIdsLt assocFK atMostOneBest; infer_instance

/-! ### Concrete stores used by the counterexamples and witnesses -/

/-- One café in Paris whose single association is (wifi, is_best=true). -/
def storeC1 : Store :=
  ⟨[⟨1, "A", "Paris", "d", none⟩], [⟨1, "wifi"⟩], [⟨1, 1, 1, true⟩], 2, 2⟩

/-- An empty café table with the single category wifi. -/
def storeC2 : Store := ⟨[], [⟨1, "wifi"⟩], [], 1, 1⟩

/-- Request with best_for="wifi" duplicated inside also_good_for. -/
def reqC2 : CafeCreate := ⟨"B", "Paris", "d", none, "wifi", ["wifi"]⟩

/-- Categories wifi and quiet; café 1 has best=wifi plus also=quiet, café 2 has only
best=wifi. -/
def storeC3 : Store :=
  ⟨[⟨1, "A", "P", "cozy", none⟩, ⟨2, "B", "P", "cozy", none⟩],
    [⟨1, "wifi"⟩, ⟨2, "quiet"⟩],
    [⟨1, 1, 1, true⟩, ⟨2, 1, 2, false⟩, ⟨3, 2, 1, true⟩], 3, 4⟩

/-- Two cafés: a corpus just large enough that the recommendation endpoint gets past
the length check and reaches the document-construction line. -/
def storeC4 : Store :=
  ⟨[⟨1, "A", "P", "cozy cafe", none⟩, ⟨2, "B", "P", "cozy cafe", none⟩],
    [⟨1, "wifi"⟩],
    [⟨1, 1, 1, true⟩, ⟨2, 2, 1, true⟩], 3, 3⟩

/-! ### Shape lemmas for the write operations -/

theorem alsoRows_mem : ∀ {l : List Nat} {base cafeId : Nat} {a : CafeCategory},
    a ∈ alsoRows base cafeId l →
    a.cafe_id = cafeId ∧ a.is_best = false ∧ a.category_id ∈ l := by
  intro l
  induction l with
  | nil => intro base cafeId a ha; simp [alsoRows] at ha
  | cons x xs ih =>
    intro base cafeId a ha
    simp only [alsoRows, List.mem_cons] at ha
    rcases ha with rfl | ha
    · exact ⟨rfl, rfl, List.mem_cons_self _ _⟩
    · obtain ⟨h1, h2, h3⟩ := ih ha
      exact ⟨h1, h2, List.mem_cons_of_mem _ h3⟩

theorem alsoRows_filter_best : ∀ (l : List Nat) (base cafeId : Nat),
    (alsoRows base cafeId l).filter (fun a => a.is_best) = [] := by
  intro l
  induction l with
  | nil => intro base cafeId; rfl
  | cons x xs ih => intro base cafeId; simp [alsoRows, ih]

theorem alsoRows_map_pair : ∀ (l : List Nat) (base cafeId : Nat),
    (alsoRows base cafeId l).map (fun a => (a.category_id, a.is_best)) =
      l.map (fun i => (i, false)) := by
  intro l
  induction l with
  | nil => intro base cafeId; rfl
  | cons x xs ih => intro base cafeId; simp [alsoRows, ih]

theorem newAssocRows_mem {base cafeId bestId : Nat} {alsoIds : List Nat} {a : CafeCategory}
    (h : a ∈ newAssocRows base cafeId bestId alsoIds) : a.cafe_id = cafeId := by
  simp only [newAssocRows, List.mem_cons] at h
  rcases h with rfl | h
  · rfl
  · exact (alsoRows_mem h).1

theorem newAssocRows_filter_best (base cafeId bestId : Nat) (alsoIds : List Nat) :
    (newAssocRows base cafeId bestId alsoIds).filter (fun a => a.is_best) =
      [⟨base, cafeId, bestId, true⟩] := by
  simp [newAssocRows, alsoRows_filter_best]

theorem newAssocRows_map_pair (base cafeId bestId : Nat) (alsoIds : List Nat) :
    (newAssocRows base cafeId bestId alsoIds).map (fun a => (a.category_id, a.is_best)) =
      (bestId, true) :: alsoIds.map (fun i => (i, false)) := by
  simp [newAssocRows, alsoRows_map_pair]

theorem createCafe_ok {s : Store} {req : CafeCreate} {c : Cafe} {s' : Store}
    (h : createCafe s req = (.ok c, s')) :
    ∃ bestCat, findCategory s req.best_for = some bestCat ∧
      firstMissing s req.also_good_for = none ∧
      c = ⟨s.nextCafeId, req.title, req.city, req.description, req.image_url⟩ ∧
      s' = ⟨s.cafes ++ [c], s.categories,
        s.assocs ++ newAssocRows s.nextAssocId s.nextCafeId bestCat.id
          (resolveIds s req.also_good_for),
        s.nextCafeId + 1,
        s.nextAssocId + (newAssocRows s.nextAssocId s.nextCafeId bestCat.id
          (resolveIds s req.also_good_for)).length⟩ ∧
      dbConstraintsOk s' := by
  unfold createCafe at h
  cases hfc : findCategory s req.best_for with
  | none => rw [hfc] at h; exact absurd h (by simp)
  | some bestCat =>
    rw [hfc] at h
    cases hfm : firstMissing s req.also_good_for with
    | some n => rw [hfm] at h; exact absurd h (by simp)
    | none =>
      rw [hfm] at h
      simp only at h
      split at h
      · rename_i hok
        injection h with h1 h2
        injection h1 with h1
        refine ⟨bestCat, rfl, rfl, h1.symm, ?_, ?_⟩
        · rw [← h2, ← h1]
        · rw [← h2]; exact hok
      · exact absurd h (by simp)

theorem createCafe_error {s : Store} {req : CafeCreate} {e : ApiError} {s' : Store}
    (h : createCafe s req = (.error e, s')) : s' = s := by
  unfold createCafe at h
  cases hfc : findCategory s req.best_for with
  | none => rw [hfc] at h; injection h with h1 h2; exact h2.symm
  | some bestCat =>
    rw [hfc] at h
    cases hfm : firstMissing s req.also_good_for with
    | some n => rw [hfm] at h; injection h with h1 h2; exact h2.symm
    | none =>
      rw [hfm] at h
      simp only at h
      split at h
      · exact absurd h (by simp)
      · injection h with h1 h2; exact h2.symm

theorem updateCafe_ok {s : Store} {cafeId : Nat} {req : CafeCreate} {c : Cafe} {s' : Store}
    (h : updateCafe s cafeId req = (.ok c, s')) :
    ∃ c0 bestCat, s.cafes.find? (fun x => x.id == cafeId) = some c0 ∧ c0.id = cafeId ∧
      findCategory s req.best_for = some bestCat ∧
      firstMissing s req.also_good_for = none ∧
      c = applyCafeFields req c0 ∧
      s' = ⟨s.cafes.map (fun x => if x.id == c0.id then applyCafeFields req x else x),
        s.categories,
        s.assocs.filter (fun a => !(a.cafe_id == c0.id)) ++
          newAssocRows s.nextAssocId c0.id bestCat.id (resolveIds s req.also_good_for),
        s.nextCafeId,
        s.nextAssocId + (newAssocRows s.nextAssocId c0.id bestCat.id
          (resolveIds s req.also_good_for)).length⟩ ∧
      dbConstraintsOk s' := by
  unfold updateCafe at h
  cases hfind : s.cafes.find? (fun x => x.id == cafeId) with
  | none => rw [hfind] at h; exact absurd h (by simp)
  | some c0 =>
    rw [hfind] at h
    have hc0 : c0.id = cafeId := by
      have := List.find?_some (p := fun (x : Cafe) => x.id == cafeId) hfind
      simpa using this
    cases hfc : findCategory s req.best_for with
    | none => rw [hfc] at h; exact absurd h (by simp)
    | some bestCat =>
      rw [hfc] at h
      cases hfm : firstMissing s req.also_good_for with
      | some n => rw [hfm] at h; exact absurd h (by simp)
      | none =>
        rw [hfm] at h
        simp only at h
        split at h
        · rename_i hok
          injection h with h1 h2
          injection h1 with h1
          refine ⟨c0, bestCat, rfl, hc0, rfl, rfl, h1.symm, ?_, ?_⟩
          · rw [← h2]
          · rw [← h2]; exact hok
        · exact absurd h (by simp)

theorem updateCafe_error {s : Store} {cafeId : Nat} {req : CafeCreate} {e : ApiError}
    {s' : Store} (h : updateCafe s cafeId req = (.error e, s')) : s' = s := by
  unfold updateCafe at h
  cases hfind : s.cafes.find? (fun x => x.id == cafeId) with
  | none => rw [hfind] at h; injection h with h1 h2; exact h2.symm
  | some c0 =>
    rw [hfind] at h
    cases hfc : findCategory s req.best_for with
    | none => rw [hfc] at h; injection h with h1 h2; exact h2.symm
    | some bestCat =>
      rw [hfc] at h
      cases hfm : firstMissing s req.also_good_for with
      | some n => rw [hfm] at h; injection h with h1 h2; exact h2.symm
      | none =>
        rw [hfm] at h
        simp only at h
        split at h
        · exact absurd h (by simp)
        · injection h with h1 h2; exact h2.symm

theorem deleteCafe_ok {s : Store} {cafeId : Nat} {m : String} {s' : Store}
    (h : deleteCafe s cafeId = (.ok m, s')) :
    ∃ c0, s.cafes.find? (fun x => x.id == cafeId) = some c0 ∧
      s' = ⟨s.cafes.filter (fun c => !(c.id == c0.id)), s.categories,
        s.assocs.filter (fun a => !(a.cafe_id == c0.id)), s.nextCafeId, s.nextAssocId⟩ := by
  unfold deleteCafe at h
  cases hfind : s.cafes.find? (fun x => x.id == cafeId) with
  | none => rw [hfind] at h; exact absurd h (by simp)
  | some c0 =>
    rw [hfind] at h
    injection h with h1 h2
    exact ⟨c0, rfl, h2.symm⟩

theorem deleteCafe_error {s : Store} {cafeId : Nat} {e : ApiError} {s' : Store}
    (h : deleteCafe s cafeId = (.error e, s')) : s' = s := by
  unfold deleteCafe at h
  cases hfind : s.cafes.find? (fun x => x.id == cafeId) with
  | none => rw [hfind] at h; injection h with h1 h2; exact h2.symm
  | some c0 => rw [hfind] at h; exact absurd h (by simp)

/-! ### Invariant preservation for the write operations -/

theorem assoc_cafeId_lt {s : Store} (hinv : StoreInv s) :
    ∀ a ∈ s.assocs, a.cafe_id < s.nextCafeId := by
  intro a ha
  obtain ⟨cf, hcf, hid⟩ := hinv.2.2.2.1 a ha
  exact hid ▸ hinv.2.2.1 cf hcf

theorem assocKeys_inj {s : Store} (hnd : (assocKeys s).Nodup) :
    ∀ a ∈ s.assocs, ∀ b ∈ s.assocs,
      a.cafe_id = b.cafe_id → a.category_id = b.category_id → a = b := by
  intro a ha b hb h1 h2
  exact List.inj_on_of_nodup_map hnd ha hb (by rw [h1, h2])

theorem createCafe_c5 {s : Store} {req : CafeCreate} {c : Cafe} {s' : Store}
    (hinv : StoreInv s) (h : createCafe s req = (.ok c, s')) :
    ((cafeAssocs s' c).filter (fun a => a.is_best)).length = 1 ∧
    (∀ a ∈ cafeAssocs s' c, ∀ b ∈ cafeAssocs s' c,
      a.is_best = true → b.is_best = false → a.category_id ≠ b.category_id) ∧
    StoreInv s' := by
  obtain ⟨bestCat, hfc, hfm, hc, hs', hok⟩ := createCafe_ok h
  subst hc hs'
  have hlt := assoc_cafeId_lt hinv
  have hfold : s.assocs.filter
      (fun a => a.cafe_id == s.nextCafeId) = [] := by
    rw [List.filter_eq_nil_iff]
    intro a ha
    have := hlt a ha
    simp only [beq_iff_eq]
    omega
  have hfrows : (newAssocRows s.nextAssocId s.nextCafeId bestCat.id
      (resolveIds s req.also_good_for)).filter (fun a => a.cafe_id == s.nextCafeId) =
      newAssocRows s.nextAssocId s.nextCafeId bestCat.id (resolveIds s req.also_good_for) := by
    rw [List.filter_eq_self]
    intro a ha
    simp [newAssocRows_mem ha]
  have hassoc : cafeAssocs
      ⟨s.cafes ++ [⟨s.nextCafeId, req.title, req.city, req.description, req.image_url⟩],
        s.categories,
        s.assocs ++ newAssocRows s.nextAssocId s.nextCafeId bestCat.id
          (resolveIds s req.also_good_for), s.nextCafeId + 1,
        s.nextAssocId + (newAssocRows s.nextAssocId s.nextCafeId bestCat.id
          (resolveIds s req.also_good_for)).length⟩
      ⟨s.nextCafeId, req.title, req.city, req.description, req.image_url⟩ =
      newAssocRows s.nextAssocId s.nextCafeId bestCat.id (resolveIds s req.also_good_for) := by
    unfold cafeAssocs
    simp only [List.filter_append]
    rw [hfold, hfrows]
    rfl
  refine ⟨?_, ?_, ?_⟩
  · rw [hassoc, newAssocRows_filter_best]
    rfl
  · rw [hassoc]
    intro a ha b hb hab hbb hcontra
    have haS : a ∈ s.assocs ++ newAssocRows s.nextAssocId s.nextCafeId bestCat.id
        (resolveIds s req.also_good_for) := List.mem_append_right _ ha
    have hbS : b ∈ s.assocs ++ newAssocRows s.nextAssocId s.nextCafeId bestCat.id
        (resolveIds s req.also_good_for) := List.mem_append_right _ hb
    have heq : a = b := assocKeys_inj hok.2 a haS b hbS
      ((newAssocRows_mem ha).trans (newAssocRows_mem hb).symm) hcontra
    rw [heq, hbb] at hab
    exact Bool.noConfusion hab
  · refine ⟨hok, ?_, ?_, ?_, ?_⟩
    · unfold cafeIdsNodup
      simp only [List.map_append, List.map_cons, List.map_nil]
      rw [List.nodup_append]
      refine ⟨hinv.2.1, List.nodup_singleton _, ?_⟩
      intro x hx hmem
      rcases List.mem_map.mp hx with ⟨cf, hcf, rfl⟩
      have := hinv.2.2.1 cf hcf
      simp only [List.mem_singleton] at hmem
      omega
    · intro c' hc'
      rcases List.mem_append.mp hc' with hl | hr
      · have := hinv.2.2.1 c' hl
        simp only
        omega
      · simp only [List.mem_singleton] at hr
        rw [hr]
        simp only
        omega
    · intro a ha
      rcases List.mem_append.mp ha with hl | hr
      · obtain ⟨cf, hcf, hid⟩ := hinv.2.2.2.1 a hl
        exact ⟨cf, List.mem_append_left _ hcf, hid⟩
      · refine ⟨⟨s.nextCafeId, req.title, req.city, req.description, req.image_url⟩,
          List.mem_append_right _ (List.mem_singleton_self _), ?_⟩
        simp [newAssocRows_mem hr]
    · unfold atMostOneBest
      simp only [List.filter_append]
      rw [newAssocRows_filter_best]
      rw [List.pairwise_append]
      refine ⟨hinv.2.2.2.2, List.pairwise_singleton _ _, ?_⟩
      intro a ha b hb
      have haS : a ∈ s.assocs := (List.mem_filter.mp ha).1
      have := hlt a haS
      simp only [List.mem_singleton] at hb
      rw [hb]
      simp only
      omega

theorem updateCafe_c5 {s : Store} {cafeId : Nat} {req : CafeCreate} {c : Cafe} {s' : Store}
    (hinv : StoreInv s) (h : updateCafe s cafeId req = (.ok c, s')) :
    ((cafeAssocs s' c).filter (fun a => a.is_best)).length = 1 ∧
    (∀ a ∈ cafeAssocs s' c, ∀ b ∈ cafeAssocs s' c,
      a.is_best = true → b.is_best = false → a.category_id ≠ b.category_id) ∧
    StoreInv s' := by
  obtain ⟨c0, bestCat, hfind, hc0, hfc, hfm, hc, hs', hok⟩ := updateCafe_ok h
  subst hc hs'
  have hcid : (applyCafeFields req c0).id = c0.id := rfl
  have hfold : (s.assocs.filter (fun a => !(a.cafe_id == c0.id))).filter
      (fun a => a.cafe_id == (applyCafeFields req c0).id) = [] := by
    rw [List.filter_eq_nil_iff]
    intro a ha
    have := (List.mem_filter.mp ha).2
    rw [hcid]
    simpa using this
  have hfrows : (newAssocRows s.nextAssocId c0.id bestCat.id
      (resolveIds s req.also_good_for)).filter
      (fun a => a.cafe_id == (applyCafeFields req c0).id) =
      newAssocRows s.nextAssocId c0.id bestCat.id (resolveIds s req.also_good_for) := by
    rw [List.filter_eq_self]
    intro a ha
    simp [newAssocRows_mem ha, hcid]
  have hassoc : cafeAssocs
      ⟨s.cafes.map (fun x => if x.id == c0.id then applyCafeFields req x else x),
        s.categories,
        s.assocs.filter (fun a => !(a.cafe_id == c0.id)) ++
          newAssocRows s.nextAssocId c0.id bestCat.id (resolveIds s req.also_good_for),
        s.nextCafeId,
        s.nextAssocId + (newAssocRows s.nextAssocId c0.id bestCat.id
          (resolveIds s req.also_good_for)).length⟩
      (applyCafeFields req c0) =
      newAssocRows s.nextAssocId c0.id bestCat.id (resolveIds s req.also_good_for) := by
    unfold cafeAssocs
    simp only [List.filter_append]
    rw [hfold, hfrows]
    rfl
  have hidmap : ∀ x ∈ s.cafes,
      ((if x.id == c0.id then applyCafeFields req x else x) : Cafe).id = x.id := by
    intro x hx
    split <;> rfl
  have hids' : (s.cafes.map (fun x => if x.id == c0.id then applyCafeFields req x else x)).map
      (fun c => c.id) = s.cafes.map (fun c => c.id) := by
    rw [List.map_map]
    exact List.map_congr_left hidmap
  refine ⟨?_, ?_, ?_⟩
  · rw [hassoc, newAssocRows_filter_best]
    rfl
  · rw [hassoc]
    intro a ha b hb hab hbb hcontra
    have haS := List.mem_append_right (s.assocs.filter (fun a => !(a.cafe_id == c0.id))) ha
    have hbS := List.mem_append_right (s.assocs.filter (fun a => !(a.cafe_id == c0.id))) hb
    have heq : a = b := assocKeys_inj hok.2 a haS b hbS
      ((newAssocRows_mem ha).trans (newAssocRows_mem hb).symm) hcontra
    rw [heq, hbb] at hab
    exact Bool.noConfusion hab
  · refine ⟨hok, ?_, ?_, ?_, ?_⟩
    · unfold cafeIdsNodup
      simp only
      rw [hids']
      exact hinv.2.1
    · intro c' hc'
      rcases List.mem_map.mp hc' with ⟨x, hx, rfl⟩
      have := hinv.2.2.1 x hx
      rw [hidmap x hx]
      exact this
    · intro a ha
      rcases List.mem_append.mp ha with hl | hr
      · have haS : a ∈ s.assocs := (List.mem_filter.mp hl).1
        obtain ⟨cf, hcf, hid⟩ := hinv.2.2.2.1 a haS
        refine ⟨(if cf.id == c0.id then applyCafeFields req cf else cf),
          List.mem_map_of_mem _ hcf, ?_⟩
        rw [hidmap cf hcf]
        exact hid
      · have hc0mem : c0 ∈ s.cafes := List.mem_of_find?_eq_some hfind
        refine ⟨(if c0.id == c0.id then applyCafeFields req c0 else c0),
          List.mem_map_of_mem _ hc0mem, ?_⟩
        rw [hidmap c0 hc0mem]
        exact (newAssocRows_mem hr).symm
    · unfold atMostOneBest
      simp only [List.filter_append]
      rw [newAssocRows_filter_best]
      rw [List.pairwise_append]
      refine ⟨?_, List.pairwise_singleton _ _, ?_⟩
      · have hsub : List.Sublist
            ((s.assocs.filter (fun a => !(a.cafe_id == c0.id))).filter (fun a => a.is_best))
            (s.assocs.filter (fun a => a.is_best)) :=
          List.Sublist.filter _ (List.filter_sublist _)
        exact hinv.2.2.2.2.sublist hsub
      · intro a ha b hb
        simp only [List.mem_filter, Bool.not_eq_true', beq_eq_false_iff_ne] at ha
        simp only [List.mem_singleton] at hb
        subst hb
        exact ha.1.2

theorem deleteCafe_inv {s : Store} {cafeId : Nat} {m : String} {s' : Store}
    (hinv : StoreInv s) (h : deleteCafe s cafeId = (.ok m, s')) : StoreInv s' := by
  obtain ⟨c0, hfind, hs'⟩ := deleteCafe_ok h
  subst hs'
  refine ⟨⟨?_, ?_⟩, ?_, ?_, ?_, ?_⟩
  · exact hinv.1.1.sublist (List.Sublist.map _ (List.filter_sublist _))
  · exact hinv.1.2.sublist (List.Sublist.map _ (List.filter_sublist _))
  · exact hinv.2.1.sublist (List.Sublist.map _ (List.filter_sublist _))
  · intro c' hc'
    exact hinv.2.2.1 c' (List.mem_of_mem_filter hc')
  · intro a ha
    have haS : a ∈ s.assocs := (List.mem_filter.mp ha).1
    have haNe := (List.mem_filter.mp ha).2
    obtain ⟨cf, hcf, hid⟩ := hinv.2.2.2.1 a haS
    refine ⟨cf, List.mem_filter.mpr ⟨hcf, ?_⟩, hid⟩
    rw [hid]
    exact haNe
  · exact hinv.2.2.2.2.sublist (List.Sublist.filter _ (List.filter_sublist _))

/-! ### Claim C1 — the category filters of GET /cafes -/

/-- C1 (confirmed): the claim is only-if-phrased, and every returned café satisfies
all three clauses.  The city clause holds genuinely (`ilike` substring, proved from the
filter predicate).  The two category clauses hold VACUOUSLY: the source compares
`CafeCategory.is_best is True` / `is False` with Python object identity, which yields
the constant `False` and a constant-false SQL predicate (see `isBestIsTrue`), so
whenever a `best_for` or `also_good_for` filter is supplied no café is returned at all
— the proof of those clauses derives `False` from membership in the result. -/
theorem c1_filter_only_if (s : Store) (city bestFor : Option String)
    (alsoGoodFor : Option (List String)) (r : List Cafe)
    (hok : getCafesResult s city bestFor alsoGoodFor = .ok r) :
    ∀ c ∈ r,
      (truthyStr city = true → cityContains c.city (city.getD "") = true) ∧
      (truthyStr bestFor = true → ∃ a ∈ s.assocs, a.cafe_id = c.id ∧ a.is_best = true ∧
        ∃ cat ∈ s.categories, cat.id = a.category_id ∧ cat.name = bestFor.getD "") ∧
      (truthyList alsoGoodFor = true → ∃ a ∈ s.assocs, a.cafe_id = c.id ∧
        a.is_best = false ∧
        ∃ cat ∈ s.categories, cat.id = a.category_id ∧ cat.name ∈ alsoGoodFor.getD []) := by
  intro c hc
  simp only [getCafesResult] at hok
  split at hok
  · exact absurd hok (by simp)
  · have hr : r = s.cafes.filter (fun c =>
        (!truthyStr city || cityContains c.city (city.getD "")) &&
        ((!truthyStr bestFor && !truthyList alsoGoodFor) ||
          s.assocs.any (fun a => a.cafe_id == c.id && joinedRowOk s bestFor alsoGoodFor a))) := by
      cases hok; rfl
    rw [hr] at hc
    have hkeep := (List.mem_filter.mp hc).2
    rw [Bool.and_eq_true] at hkeep
    obtain ⟨hA, hB⟩ := hkeep
    refine ⟨?_, ?_, ?_⟩
    · intro hcity
      rw [hcity] at hA
      simpa using hA
    · intro hbf
      exfalso
      rw [hbf] at hB
      simp only [Bool.not_true, Bool.false_and, Bool.false_or, List.any_eq_true] at hB
      obtain ⟨a, _, hpa⟩ := hB
      rw [Bool.and_eq_true] at hpa
      have hjoin := hpa.2
      unfold joinedRowOk at hjoin
      rw [List.any_eq_true] at hjoin
      obtain ⟨cat, _, hpc⟩ := hjoin
      rw [hbf] at hpc
      simp [isBestIsTrue] at hpc
    · intro hagf
      exfalso
      rw [hagf] at hB
      simp only [Bool.not_true, Bool.and_false, Bool.false_or, List.any_eq_true] at hB
      obtain ⟨a, _, hpa⟩ := hB
      rw [Bool.and_eq_true] at hpa
      have hjoin := hpa.2
      unfold joinedRowOk at hjoin
      rw [List.any_eq_true] at hjoin
      obtain ⟨cat, _, hpc⟩ := hjoin
      rw [hagf] at hpc
      simp [isBestIsFalse] at hpc

/-- Closed witness for `c1_filter_only_if`: a city-only query on `storeC1` returns café
1, and the theorem yields the case-insensitive containment of the city substring. -/
theorem c1_filter_only_if_witness :
    truthyStr (some "par") = true ∧ cityContains "Paris" "par" = true := by
  have h := c1_filter_only_if storeC1 (some "par") none none
    [⟨1, "A", "Paris", "d", none⟩] (by decide)
  exact ⟨by decide, (h ⟨1, "A", "Paris", "d", none⟩ (by decide)).1 (by decide)⟩

/-! ### Claim C2 — best_for duplicated inside also_good_for -/

/-- C2 (code bug): the claim and the spec require a duplication VALIDATION error when
`best_for` also appears in `also_good_for`.  Neither `create_cafe` nor `update_cafe`
performs any such check (only the seed script does): the request dies on the database
`uq_cafe_category` unique constraint when the two identical `(cafe_id, category_id)`
rows are inserted, and the `IntegrityError` handler reports the unrelated detail
`"Cafe with this title and city already exists"` — here with an empty café table, so
that message is plainly wrong.  The store is left unchanged by the rollback. -/
theorem c2_duplicate_category_code_bug :
    reqC2.best_for = "wifi" ∧ reqC2.also_good_for = ["wifi"] ∧
    categoryExists storeC2 "wifi" = true ∧ storeC2.cafes = [] ∧
    createCafe storeC2 reqC2 =
      (.error (.badRequest "Cafe with this title and city already exists"), storeC2) := by decide

/-! ### Claim C3 — the text documents of the recommender -/

/-- C3 (code bug): the claim says the text document of each café equals its description
concatenated with the best-category name and the additional category names
(`specTextDoc`, here `"cozy wifi quiet"`).  The code never produces ANY document: the
attribute access `cafe.best_for` in line 198 lazy-loads `category_associations` on the
`AsyncSession` outside the greenlet context and raises `MissingGreenlet` for every
café, so the whole `texts` construction aborts (HTTP 500) before a single string is
assembled. -/
theorem c3_text_document_code_bug :
    buildText storeC3 ⟨1, "A", "P", "cozy", none⟩ = .error missingGreenletMsg ∧
    buildTexts storeC3 = .error missingGreenletMsg ∧
    specTextDoc storeC3 ⟨1, "A", "P", "cozy", none⟩ = "cozy wifi quiet" := by decide

/-! ### Claim C4 — shape of the recommendation result -/

/-- C4 (code bug): the claim (and spec §4.3/§8) say that for a corpus of two or more
cafés the request returns at most three ranked cafés excluding the target.  The code
can never produce such a result: for EVERY corpus of two or more cafés line 198 raises
`MissingGreenlet` (an unhandled exception, HTTP 500) at the first `cafe.best_for`
access, before any vector, similarity or ranking is computed — shown here on
`storeC4`.  The parts of the claim that are reachable do hold: a corpus of one café
returns the empty list (shown on `storeC1`) and an unknown target id yields the
404. -/
theorem c4_recommend_code_bug :
    2 ≤ storeC4.cafes.length ∧
    (storeC4.cafes.find? (fun c => c.id == 1)).isSome = true ∧
    recommendSimilarCafes storeC4 1 = .error (.internalError missingGreenletMsg) ∧
    recommendSimilarCafes storeC1 1 = .ok [] ∧
    recommendSimilarCafes storeC1 99 = .error (.notFound "Cafe not found") := by decide

/-! ### Claim C9 — tie order in the recommendation result -/

theorem buildTexts_error_of_nonempty {s : Store} (h : s.cafes ≠ []) :
    buildTexts s = .error missingGreenletMsg := by
  unfold buildTexts
  cases hc : s.cafes with
  | nil => exact absurd hc h
  | cons c cs => rfl

theorem recommend_ok_empty {s : Store} {cafeId : Nat} {r : List Cafe}
    (hok : recommendSimilarCafes s cafeId = .ok r) : r = [] := by
  unfold recommendSimilarCafes at hok
  cases hfind : s.cafes.find? (fun c => c.id == cafeId) with
  | none => rw [hfind] at hok; exact absurd hok (by simp)
  | some c0 =>
    rw [hfind] at hok
    by_cases hn : s.cafes.length ≤ 1
    · rw [if_pos hn] at hok
      cases hok
      rfl
    · rw [if_neg hn] at hok
      have hne : s.cafes ≠ [] := by
        intro h
        rw [h] at hn
        simp at hn
      rw [buildTexts_error_of_nonempty hne] at hok
      exact absurd hok (by simp)

/-- C9 (confirmed, vacuously): in every recommendation RESULT, cafés with equal
similarity scores appear in corpus order.  This is settled by the quantifier being
empty: every reachable successful result is the empty list — a corpus of at most one
café returns `[]` before any document is built, and every larger corpus raises
`MissingGreenlet` at line 198 (`recommend_ok_empty`) — so no result ever contains two
cafés, tied or otherwise.  Scores in the statement are the modelled `scoreRowOf`
values; corpus order is `corpusIdx`. -/
theorem c9_tie_order_vacuous (s : Store) (cafeId : Nat) (r : List Cafe)
    (hok : recommendSimilarCafes s cafeId = .ok r) :
    r.Pairwise (fun c d =>
      Frac.eqv ((scoreRowOf s cafeId).getD (corpusIdx s c) Frac.zero)
        ((scoreRowOf s cafeId).getD (corpusIdx s d) Frac.zero) →
      corpusIdx s c < corpusIdx s d) := by
  have hr : r = [] := recommend_ok_empty hok
  subst hr
  exact List.Pairwise.nil

/-- Closed witness for `c9_tie_order_vacuous` at the one-café store, where the
hypothesis is satisfied by the empty result. -/
theorem c9_tie_order_vacuous_witness :
    ([] : List Cafe).Pairwise (fun c d =>
      Frac.eqv ((scoreRowOf storeC1 1).getD (corpusIdx storeC1 c) Frac.zero)
        ((scoreRowOf storeC1 1).getD (corpusIdx storeC1 d) Frac.zero) →
      corpusIdx storeC1 c < corpusIdx storeC1 d) :=
  c9_tie_order_vacuous storeC1 1 [] (by decide)

/-! ### Claim C5 — the association invariants after writes -/

/-- C5 (confirmed): starting from a store satisfying the invariant, every successful
create or update leaves the written café with EXACTLY ONE `is_best=true` association
row, with its best category absent from its `is_best=false` rows, and the whole store
again satisfies the invariant — in particular no café has two association rows for the
same category (`dbConstraintsOk`, the `uq_cafe_category` uniqueness, is part of
`StoreInv`).  Failed creates and updates, and deletes, also preserve the invariant:
errors roll back to the unchanged store and deletion removes whole rows. -/
theorem c5_write_invariants (s : Store) (req : CafeCreate) (cafeId : Nat)
    (hinv : StoreInv s) :
    (∀ c s', createCafe s req = (.ok c, s') →
      ((cafeAssocs s' c).filter (fun a => a.is_best)).length = 1 ∧
      (∀ a ∈ cafeAssocs s' c, ∀ b ∈ cafeAssocs s' c,
        a.is_best = true → b.is_best = false → a.category_id ≠ b.category_id) ∧
      StoreInv s') ∧
    (∀ c s', updateCafe s cafeId req = (.ok c, s') →
      ((cafeAssocs s' c).filter (fun a => a.is_best)).length = 1 ∧
      (∀ a ∈ cafeAssocs s' c, ∀ b ∈ cafeAssocs s' c,
        a.is_best = true → b.is_best = false → a.category_id ≠ b.category_id) ∧
      StoreInv s') ∧
    (∀ e s', createCafe s req = (.error e, s') → s' = s) ∧
    (∀ e s', updateCafe s cafeId req = (.error e, s') → s' = s) ∧
    (∀ m s', deleteCafe s cafeId = (.ok m, s') → StoreInv s') ∧
    (∀ e s', deleteCafe s cafeId = (.error e, s') → s' = s) :=
  ⟨fun _ _ h => createCafe_c5 hinv h,
    fun _ _ h => updateCafe_c5 hinv h,
    fun _ _ h => createCafe_error h,
    fun _ _ h => updateCafe_error h,
    fun _ _ h => deleteCafe_inv hinv h,
    fun _ _ h => deleteCafe_error h⟩

/-- A store and request for exercising a successful create: café "B" with best=wifi and
also=[quiet] added next to the existing café "A". -/
def storeW5 : Store :=
  ⟨[⟨1, "A", "P", "d", none⟩], [⟨1, "wifi"⟩, ⟨2, "quiet"⟩], [⟨1, 1, 1, true⟩], 2, 2⟩

/-- The create request used by the C5 witness. -/
def reqW5 : CafeCreate := ⟨"B", "P", "d2", none, "wifi", ["quiet"]⟩

/-- The store `createCafe storeW5 reqW5` produces. -/
def storeW5' : Store :=
  ⟨[⟨1, "A", "P", "d", none⟩, ⟨2, "B", "P", "d2", none⟩], [⟨1, "wifi"⟩, ⟨2, "quiet"⟩],
    [⟨1, 1, 1, true⟩, ⟨2, 2, 1, true⟩, ⟨3, 2, 2, false⟩], 3, 4⟩

/-- Closed witness for `c5_write_invariants`: a concrete successful create satisfies
the stated post-state properties. -/
theorem c5_write_invariants_witness :
    StoreInv storeW5 ∧
    createCafe storeW5 reqW5 = (.ok ⟨2, "B", "P", "d2", none⟩, storeW5') ∧
    ((cafeAssocs storeW5' ⟨2, "B", "P", "d2", none⟩).filter
      (fun a => a.is_best)).length = 1 ∧
    StoreInv storeW5' := by
  have h := (c5_write_invariants storeW5 reqW5 0 (by decide)).1
    ⟨2, "B", "P", "d2", none⟩ storeW5' (by decide)
  exact ⟨by decide, by decide, h.1, h.2.2⟩

/-! ### Claim C6 — duplicate (title, city) on create -/

/-- C6 (counterexample): the claim asserts EVERY create request whose (title, city)
already exists fails with the uniqueness-conflict error.  A request that also names an
unknown category fails EARLIER, in category validation, with the category error — not
the conflict error — because `create_cafe` validates categories before touching the
café table.  (The store is still unchanged.) -/
theorem c6_duplicate_title_city_counterexample :
    (∃ c ∈ (⟨[⟨1, "A", "P", "d", none⟩], [], [], 2, 1⟩ : Store).cafes,
      c.title = "A" ∧ c.city = "P") ∧
    createCafe ⟨[⟨1, "A", "P", "d", none⟩], [], [], 2, 1⟩ ⟨"A", "P", "d", none, "wifi", []⟩ =
      (.error (.badRequest "Category wifi does not exist"),
        ⟨[⟨1, "A", "P", "d", none⟩], [], [], 2, 1⟩) ∧
    ApiError.badRequest "Category wifi does not exist" ≠
      ApiError.badRequest "Cafe with this title and city already exists" := by decide

/-- C6 (amended): for every create request whose (title, city) pair already exists AND
whose category names all validate, the commit violates `uq_cafe_title_city`, the
transaction rolls back, the handler reports the conflict detail, and the store is
returned unchanged — no new café row and no new association rows. -/
theorem c6_duplicate_title_city_amended (s : Store) (req : CafeCreate)
    (hdup : ∃ c ∈ s.cafes, c.title = req.title ∧ c.city = req.city)
    (hb : findCategory s req.best_for ≠ none)
    (ha : firstMissing s req.also_good_for = none) :
    createCafe s req =
      (.error (.badRequest "Cafe with this title and city already exists"), s) := by
  unfold createCafe
  cases hfc : findCategory s req.best_for with
  | none => exact absurd hfc hb
  | some bestCat =>
    rw [ha]
    simp only
    rw [if_neg]
    intro hok
    obtain ⟨c, hc, ht, hcity⟩ := hdup
    have h1 : (titleCityKeys ⟨s.cafes ++
        [⟨s.nextCafeId, req.title, req.city, req.description, req.image_url⟩], s.categories,
        s.assocs ++ newAssocRows s.nextAssocId s.nextCafeId bestCat.id
          (resolveIds s req.also_good_for), s.nextCafeId + 1,
        s.nextAssocId + (newAssocRows s.nextAssocId s.nextCafeId bestCat.id
          (resolveIds s req.also_good_for)).length⟩).Nodup := hok.1
    unfold titleCityKeys at h1
    simp only [List.map_append, List.map_cons, List.map_nil] at h1
    rw [List.nodup_append] at h1
    exact h1.2.2 (List.mem_map_of_mem _ hc) (by simp [ht, hcity])

/-- Closed witness for `c6_duplicate_title_city_amended`: resubmitting café "A" in "P"
with a valid category fails with the conflict detail and the unchanged store. -/
theorem c6_duplicate_title_city_amended_witness :
    createCafe storeW5 ⟨"A", "P", "other", none, "wifi", []⟩ =
      (.error (.badRequest "Cafe with this title and city already exists"), storeW5) :=
  c6_duplicate_title_city_amended storeW5 ⟨"A", "P", "other", none, "wifi", []⟩
    ⟨⟨1, "A", "P", "d", none⟩, by decide, by decide, by decide⟩ (by decide) (by decide)

/-! ### Claim C7 — update replaces the association set -/

/-- C7 (confirmed): after every successful update, the association rows of the café are
exactly one `is_best=true` row for the resolved best category followed by one
`is_best=false` row per additional category (in request order), and the association
rows of every other café are exactly what they were before. -/
theorem c7_update_replaces_associations (s : Store) (cafeId : Nat) (req : CafeCreate)
    (c : Cafe) (s' : Store) (hup : updateCafe s cafeId req = (.ok c, s')) :
    ∃ bestCat, findCategory s req.best_for = some bestCat ∧
      s'.assocs.filter (fun a => !(a.cafe_id == cafeId)) =
        s.assocs.filter (fun a => !(a.cafe_id == cafeId)) ∧
      (s'.assocs.filter (fun a => a.cafe_id == cafeId)).map
        (fun a => (a.category_id, a.is_best)) =
        (bestCat.id, true) :: (resolveIds s req.also_good_for).map (fun i => (i, false)) := by
  obtain ⟨c0, bestCat, hfind, hc0, hfc, hfm, hc, hs', hok⟩ := updateCafe_ok hup
  subst hs'
  subst hc0
  refine ⟨bestCat, hfc, ?_, ?_⟩
  · simp only [List.filter_append]
    have h1 : (newAssocRows s.nextAssocId c0.id bestCat.id
        (resolveIds s req.also_good_for)).filter (fun a => !(a.cafe_id == c0.id)) = [] := by
      rw [List.filter_eq_nil_iff]
      intro a ha
      simp [newAssocRows_mem ha]
    have h2 : (s.assocs.filter (fun a => !(a.cafe_id == c0.id))).filter
        (fun a => !(a.cafe_id == c0.id)) =
        s.assocs.filter (fun a => !(a.cafe_id == c0.id)) := by
      rw [List.filter_eq_self]
      intro a ha
      exact (List.mem_filter.mp ha).2
    rw [h1, h2, List.append_nil]
  · simp only [List.filter_append]
    have h1 : (s.assocs.filter (fun a => !(a.cafe_id == c0.id))).filter
        (fun a => a.cafe_id == c0.id) = [] := by
      rw [List.filter_eq_nil_iff]
      intro a ha
      have := (List.mem_filter.mp ha).2
      simp only [Bool.not_eq_true', beq_eq_false_iff_ne] at this
      simp [this]
    have h2 : (newAssocRows s.nextAssocId c0.id bestCat.id
        (resolveIds s req.also_good_for)).filter (fun a => a.cafe_id == c0.id) =
        newAssocRows s.nextAssocId c0.id bestCat.id (resolveIds s req.also_good_for) := by
      rw [List.filter_eq_self]
      intro a ha
      simp [newAssocRows_mem ha]
    rw [h1, h2, List.nil_append, newAssocRows_map_pair]

/-- Closed witness for `c7_update_replaces_associations`: updating café 1 of `storeW5'`
to best=quiet, also=[wifi] replaces its association set and leaves the rows of café 2
alone. -/
theorem c7_update_replaces_associations_witness :
    ∃ bestCat, findCategory storeW5' "quiet" = some bestCat ∧
      (⟨[⟨1, "A2", "P2", "d3", none⟩, ⟨2, "B", "P", "d2", none⟩], [⟨1, "wifi"⟩, ⟨2, "quiet"⟩],
        [⟨2, 2, 1, true⟩, ⟨3, 2, 2, false⟩, ⟨4, 1, 2, true⟩, ⟨5, 1, 1, false⟩], 3, 6⟩
        : Store).assocs.filter (fun a => !(a.cafe_id == 1)) =
        storeW5'.assocs.filter (fun a => !(a.cafe_id == 1)) ∧
      ((⟨[⟨1, "A2", "P2", "d3", none⟩, ⟨2, "B", "P", "d2", none⟩], [⟨1, "wifi"⟩, ⟨2, "quiet"⟩],
        [⟨2, 2, 1, true⟩, ⟨3, 2, 2, false⟩, ⟨4, 1, 2, true⟩, ⟨5, 1, 1, false⟩], 3, 6⟩
        : Store).assocs.filter (fun a => a.cafe_id == 1)).map
        (fun a => (a.category_id, a.is_best)) =
        (2, true) :: [1].map (fun i => (i, false)) := by
  have h := c7_update_replaces_associations storeW5' 1 ⟨"A2", "P2", "d3", none, "quiet", ["wifi"]⟩
    ⟨1, "A2", "P2", "d3", none⟩
    ⟨[⟨1, "A2", "P2", "d3", none⟩, ⟨2, "B", "P", "d2", none⟩], [⟨1, "wifi"⟩, ⟨2, "quiet"⟩],
      [⟨2, 2, 1, true⟩, ⟨3, 2, 2, false⟩, ⟨4, 1, 2, true⟩, ⟨5, 1, 1, false⟩], 3, 6⟩
    (by decide)
  obtain ⟨bestCat, h1, h2, h3⟩ := h
  exact ⟨bestCat, h1, h2, by simpa using h3⟩

/-! ### Claim C8 — unknown category names -/

/-- C8 (counterexample): the claim asserts the error message names EXACTLY the set of
missing names for every operation receiving category names.  That is true of the list
endpoint but false of create (and update): with both "aaa" and "bbb" missing,
`create_cafe` raises on the FIRST missing `also_good_for` entry and its message does
not mention "bbb" at all. -/
theorem c8_missing_names_counterexample :
    categoryExists (⟨[], [⟨1, "wifi"⟩], [], 1, 1⟩ : Store) "aaa" = false ∧
    categoryExists (⟨[], [⟨1, "wifi"⟩], [], 1, 1⟩ : Store) "bbb" = false ∧
    createCafe ⟨[], [⟨1, "wifi"⟩], [], 1, 1⟩ ⟨"B", "P", "d", none, "wifi", ["aaa", "bbb"]⟩ =
      (.error (.badRequest "Category aaa does not exist"), ⟨[], [⟨1, "wifi"⟩], [], 1, 1⟩) ∧
    containsSub "Category aaa does not exist" "bbb" = false := by decide

theorem mem_dedupFirst {α : Type} [DecidableEq α] :
    ∀ (l seen : List α) (x : α), x ∈ dedupFirst seen l ↔ (x ∈ l ∧ x ∉ seen) := by
  intro l
  induction l with
  | nil => intro seen x; simp [dedupFirst]
  | cons y ys ih =>
    intro seen x
    unfold dedupFirst
    by_cases hy : y ∈ seen
    · rw [if_pos hy, ih]
      constructor
      · rintro ⟨h1, h2⟩
        exact ⟨List.mem_cons_of_mem _ h1, h2⟩
      · rintro ⟨h1, h2⟩
        rcases List.mem_cons.mp h1 with rfl | h1
        · exact absurd hy h2
        · exact ⟨h1, h2⟩
    · rw [if_neg hy]
      constructor
      · intro h
        rcases List.mem_cons.mp h with rfl | h
        · exact ⟨List.mem_cons_self _ _, hy⟩
        · obtain ⟨h1, h2⟩ := (ih (y :: seen) x).mp h
          refine ⟨List.mem_cons_of_mem _ h1, fun hx => h2 (List.mem_cons_of_mem _ hx)⟩
      · rintro ⟨h1, h2⟩
        rcases List.mem_cons.mp h1 with rfl | h1
        · exact List.mem_cons_self _ _
        · by_cases hxy : x = y
          · subst hxy
            exact List.mem_cons_self _ _
          · refine List.mem_cons_of_mem _ ((ih (y :: seen) x).mpr ⟨h1, ?_⟩)
            intro hx
            rcases List.mem_cons.mp hx with h | h
            · exact hxy h
            · exact h2 h

theorem firstMissing_some {s : Store} {names : List String} {n : String}
    (h : firstMissing s names = some n) : n ∈ names ∧ findCategory s n = none := by
  refine ⟨List.mem_of_find?_eq_some h, ?_⟩
  have := List.find?_some (p := fun m => !(categoryExists s m)) h
  simp only [Bool.not_eq_true'] at this
  unfold categoryExists at this
  exact Option.not_isSome_iff_eq_none.mp (by simp [this])

/-- C8 (amended): for the LIST endpoint the 400 payload contains exactly the missing
queried names (all of them and no existing ones) and the store is unchanged; CREATE and
UPDATE instead report exactly ONE name — `best_for` when it is missing, otherwise the
first missing `also_good_for` entry (update only after the café id resolves) — and the
store is unchanged in every such case. -/
theorem c8_missing_names_amended (s : Store) (city bestFor : Option String)
    (alsoGoodFor : Option (List String)) (req : CafeCreate) (cafeId : Nat) :
    ((missingNames s bestFor alsoGoodFor ≠ [] →
      getCafes s city bestFor alsoGoodFor =
        (.error (.missingCategories (missingNames s bestFor alsoGoodFor)), s)) ∧
     (∀ n, n ∈ missingNames s bestFor alsoGoodFor ↔
        (n ∈ queriedNames bestFor alsoGoodFor ∧ findCategory s n = none))) ∧
    ((findCategory s req.best_for = none →
      createCafe s req =
        (.error (.badRequest ("Category " ++ req.best_for ++ " does not exist")), s)) ∧
     (∀ bc n, findCategory s req.best_for = some bc →
        firstMissing s req.also_good_for = some n →
        n ∈ req.also_good_for ∧ findCategory s n = none ∧
        createCafe s req =
          (.error (.badRequest ("Category " ++ n ++ " does not exist")), s))) ∧
    (∀ c0, s.cafes.find? (fun x => x.id == cafeId) = some c0 →
      (findCategory s req.best_for = none →
        updateCafe s cafeId req =
          (.error (.badRequest ("Category " ++ req.best_for ++ " does not exist")), s)) ∧
      (∀ bc n, findCategory s req.best_for = some bc →
        firstMissing s req.also_good_for = some n →
        updateCafe s cafeId req =
          (.error (.badRequest ("Category " ++ n ++ " does not exist")), s))) := by
  refine ⟨⟨?_, ?_⟩, ⟨?_, ?_⟩, ?_⟩
  · intro hne
    unfold getCafes getCafesResult
    have : (missingNames s bestFor alsoGoodFor).isEmpty = false := by
      cases hm : missingNames s bestFor alsoGoodFor with
      | nil => exact absurd hm hne
      | cons a l => rfl
    simp only [this]
    rfl
  · intro n
    unfold missingNames
    rw [List.mem_filter, mem_dedupFirst]
    simp only [List.not_mem_nil, not_false_eq_true, and_true, Bool.not_eq_true']
    unfold categoryExists
    cases findCategory s n <;> simp
  · intro hbf
    unfold createCafe
    rw [hbf]
  · intro bc n hbc hn
    refine ⟨(firstMissing_some hn).1, (firstMissing_some hn).2, ?_⟩
    unfold createCafe
    rw [hbc, hn]
  · intro c0 hc0
    constructor
    · intro hbf
      unfold updateCafe
      rw [hc0, hbf]
    · intro bc n hbc hn
      unfold updateCafe
      rw [hc0, hbc, hn]

/-- Closed witness for `c8_missing_names_amended`: querying the list endpoint with the
unknown name "zzz" yields the 400 whose payload is exactly ["zzz"]. -/
theorem c8_missing_names_amended_witness :
    getCafes storeW5 none (some "zzz") none =
      (.error (.missingCategories (missingNames storeW5 (some "zzz") none)), storeW5) :=
  (c8_missing_names_amended storeW5 none (some "zzz") none
    ⟨"B", "P", "d", none, "wifi", []⟩ 0).1.1 (by decide)

/-! ### Claim C10 — the read endpoints do not write -/

/-- C10 (confirmed): the three read handlers — GET /cafes, GET /cafes/{id}/recommend,
GET /categories — only run SELECT statements, so for every starting store and every
outcome (success, validation error, not-found, or the internal `MissingGreenlet`
error of the recommender) the store they return is exactly the store they were
given. -/
theorem c10_read_ops_pure (s : Store) (city bestFor : Option String)
    (alsoGoodFor : Option (List String)) (cafeId : Nat) :
    (getCafes s city bestFor alsoGoodFor).2 = s ∧
    (getRecommendations s cafeId).2 = s ∧
    (getCategories s).2 = s :=
  ⟨rfl, rfl, rfl⟩

end CafeList
